import Mathlib

/-!
Verification of the todo-app server (`src/server.js`) against its
natural-language specification.

The server is embedded shallowly: the in-memory collection (`todos`,
`nextId`) becomes an explicit `ServerState`; each Express route handler
becomes a pure function from the state and the request (plus explicit
oracle booleans standing for the outcomes of the external object-store
and image-normalization calls) to a result record carrying the HTTP
status, the new state, and the storage operations that succeeded.
-/

namespace TodoApp

/-- One todo record, mirroring the JS object
`{id, text, completed, hasPhoto, photoFilename}`. -/
structure Todo where
  id : Nat
  text : String
  completed : Bool
  hasPhoto : Bool
  photoFilename : Option String
deriving Repr, DecidableEq

/-- The mutable server state: the `todos` array and the `nextId` counter. -/
structure ServerState where
  todos : List Todo
  nextId : Nat
deriving Repr, DecidableEq

/-- The two seed todos from `server.js` lines 44-47. -/
def initialTodos : List Todo :=
  [ { id := 1, text := "Welcome to your todo app!", completed := false,
      hasPhoto := false, photoFilename := none },
    { id := 2, text := "Add your first todo", completed := false,
      hasPhoto := false, photoFilename := none } ]

/-- Initial state: seed todos, `nextId = 3`. -/
def initialState : ServerState := { todos := initialTodos, nextId := 3 }

/-- JS truthiness of an optional string (`null` and `""` are falsy). -/
def strTruthy : Option String → Bool
  | none => false
  | some s => s ≠ ""

/-- A multipart file upload as multer presents it (`req.file`). -/
structure FileUpload where
  mimeType : String
  size : Nat
deriving Repr, DecidableEq

/-- Outcome of the `upload.single('photo')` multer middleware
(`server.js` lines 31-41): a wrong mimetype is rejected by the
`fileFilter` with a plain `Error`, an oversize payload is rejected by
`limits.fileSize` with a `MulterError`, everything else passes through. -/
inductive MulterOutcome
  | accepted (file : Option FileUpload)
  | filterError
  | limitError
deriving Repr, DecidableEq

/-- The multer middleware: `fileFilter` accepts exactly `image/jpeg`;
`limits.fileSize` is `5 * 1024 * 1024` bytes. -/
def multerGate (file : Option FileUpload) : MulterOutcome :=
  match file with
  | none => .accepted none
  | some f =>
    if f.mimeType ≠ "image/jpeg" then .filterError
    else if f.size > 5 * 1024 * 1024 then .limitError
    else .accepted (some f)

/-- The error-handling middleware (`server.js` lines 55-64): a
`MulterError` is answered with status 400 and its message; any other
error with status 500. `none` means no error was raised. -/
def errorMiddlewareStatus : MulterOutcome → Option Nat
  | .accepted _ => none
  | .filterError => some 500
  | .limitError => some 400

/-- Result of `uploadPhotoToGCS` (`server.js` lines 90-111). The thrown
exceptions are distinguished by their origin. -/
inductive UploadResult
  | notConfigured
  | transformError
  | storageError
  | stored (filename : String)
deriving Repr, DecidableEq

/-- The storage key computed at `server.js` line 101:
`todos/<todoId>/<Date.now()>.jpg`. -/
def photoKey (todoId now : Nat) : String :=
  "todos/" ++ toString todoId ++ "/" ++ toString now ++ ".jpg"

/-- `uploadPhotoToGCS(buffer, todoId)`: throws if the bucket is not
configured; runs the sharp normalization (outcome `normalizeOk`);
computes the key from the todo id and the current time; saves the
optimized bytes (outcome `saveOk`); returns the filename. -/
def uploadPhotoToGCS (bucketConfigured normalizeOk saveOk : Bool)
    (todoId now : Nat) : UploadResult :=
  if ¬bucketConfigured then .notConfigured
  else if ¬normalizeOk then .transformError
  else if ¬saveOk then .storageError
  else .stored (photoKey todoId now)

/-- A successful `file.save` call recorded with its key and the
content type from its metadata (`server.js` lines 104-108). -/
structure PutCall where
  key : String
  contentType : String
deriving Repr, DecidableEq

/-- Update the first todo whose `id` matches, leaving the rest alone —
the effect of mutating the object returned by `todos.find(...)`. -/
def updateFirst (todos : List Todo) (id : Nat) (f : Todo → Todo) : List Todo :=
  match todos with
  | [] => []
  | t :: ts => if t.id = id then f t :: ts else t :: updateFirst ts id f

/-- Result of a request: HTTP status, resulting state, the todo sent in
the response body (if any), the storage keys whose delete succeeded, and
the successful `file.save` calls. -/
structure ReqResult where
  status : Nat
  state : ServerState
  returned : Option Todo
  deletedKeys : List String
  puts : List PutCall
deriving Repr, DecidableEq

/-- The JSON `completed` field of a PUT body, as JS `typeof` sees it. -/
inductive CompletedField
  | boolVal (b : Bool)
  | absent
  | nonBool
deriving Repr, DecidableEq

/-- JS `String.prototype.trim`: drop leading and trailing whitespace.
Executable model of the `text.trim()` calls in the handler. -/
def trimStr (s : String) : String :=
  String.mk (((s.data.dropWhile Char.isWhitespace).reverse.dropWhile Char.isWhitespace).reverse)

/-- Is the `text` form field missing/blank? `!text || text.trim() === ''`
(`server.js` line 132). -/
def textInvalid : Option String → Bool
  | none => true
  | some s => s = "" || trimStr s = ""

/-- POST `/api/todos` (`server.js` lines 126-165), after multer accepted
the request. Blank text → 400 before anything else. Otherwise the todo
is built with `id = nextId++`, trimmed text, defaults; if a file is
present and the bucket configured, `uploadPhotoToGCS` is attempted and
its failure swallowed (`// Continue without photo`); the todo is pushed
and answered with 201. -/
def postTodosHandler (st : ServerState) (text : Option String)
    (file : Option FileUpload) (bucketConfigured normalizeOk saveOk : Bool)
    (now : Nat) : ReqResult :=
  if textInvalid text then
    { status := 400, state := st, returned := none, deletedKeys := [], puts := [] }
  else
    let base : Todo :=
      { id := st.nextId, text := trimStr (text.getD ""), completed := false,
        hasPhoto := false, photoFilename := none }
    let st' : ServerState := { st with nextId := st.nextId + 1 }
    match file, bucketConfigured with
    | some _, true =>
      match uploadPhotoToGCS true normalizeOk saveOk base.id now with
      | .stored fn =>
        let newTodo := { base with hasPhoto := true, photoFilename := some fn }
        { status := 201, state := { st' with todos := st.todos ++ [newTodo] },
          returned := some newTodo, deletedKeys := [],
          puts := [{ key := fn, contentType := "image/jpeg" }] }
      | _ =>
        { status := 201, state := { st' with todos := st.todos ++ [base] },
          returned := some base, deletedKeys := [], puts := [] }
    | _, _ =>
      { status := 201, state := { st' with todos := st.todos ++ [base] },
        returned := some base, deletedKeys := [], puts := [] }

/-- PUT `/api/todos/:id` (`server.js` lines 167-181): 404 when no todo
has the id; otherwise set `completed` only when the body value is a
boolean, and answer with the (possibly updated) record. -/
def putTodoHandler (st : ServerState) (id : Nat)
    (completed : CompletedField) : ReqResult :=
  match st.todos.find? (fun t => t.id = id) with
  | none =>
    { status := 404, state := st, returned := none, deletedKeys := [], puts := [] }
  | some todo =>
    match completed with
    | .boolVal b =>
      let todo' := { todo with completed := b }
      { status := 200,
        state := { st with todos := updateFirst st.todos id (fun t => { t with completed := b }) },
        returned := some todo', deletedKeys := [], puts := [] }
    | _ =>
      { status := 200, state := st, returned := some todo,
        deletedKeys := [], puts := [] }

/-- DELETE `/api/todos/:id` (`server.js` lines 183-205): 404 when the id
is unknown; otherwise a best-effort delete of the photo object (failure
caught and ignored), then the todo is spliced out and 204 returned. -/
def deleteTodoHandler (st : ServerState) (id : Nat)
    (bucketConfigured deleteOk : Bool) : ReqResult :=
  match st.todos.find? (fun t => t.id = id) with
  | none =>
    { status := 404, state := st, returned := none, deletedKeys := [], puts := [] }
  | some todo =>
    let deleted :=
      if todo.hasPhoto ∧ strTruthy todo.photoFilename ∧ bucketConfigured ∧ deleteOk
      then [todo.photoFilename.getD ""] else []
    { status := 204,
      state := { st with todos := st.todos.eraseP (fun t => t.id = id) },
      returned := none, deletedKeys := deleted, puts := [] }

/-- POST `/api/todos/:id/photo` (`server.js` lines 234-269), after multer
accepted the request: 404 when the id is unknown, 400 when no file was
sent, 500 when the bucket is not configured. Otherwise the existing
photo's key is deleted first (its failure caught and ignored), then
`uploadPhotoToGCS` runs; on success the todo is relinked to the new key
and returned, on a thrown error the outer catch answers 500 with the
todo's fields untouched. -/
def postTodoPhotoHandler (st : ServerState) (id : Nat)
    (file : Option FileUpload)
    (bucketConfigured deleteOk normalizeOk saveOk : Bool)
    (now : Nat) : ReqResult :=
  match st.todos.find? (fun t => t.id = id) with
  | none =>
    { status := 404, state := st, returned := none, deletedKeys := [], puts := [] }
  | some todo =>
    if file = none then
      { status := 400, state := st, returned := none, deletedKeys := [], puts := [] }
    else if ¬bucketConfigured then
      { status := 500, state := st, returned := none, deletedKeys := [], puts := [] }
    else
      let deleted :=
        if todo.hasPhoto ∧ strTruthy todo.photoFilename ∧ deleteOk
        then [todo.photoFilename.getD ""] else []
      match uploadPhotoToGCS true normalizeOk saveOk id now with
      | .stored fn =>
        let todo' := { todo with hasPhoto := true, photoFilename := some fn }
        let todos' := updateFirst st.todos id
          (fun t => { t with hasPhoto := true, photoFilename := some fn })
        { status := 200,
          state := { st with todos := todos' },
          returned := some todo', deletedKeys := deleted,
          puts := [{ key := fn, contentType := "image/jpeg" }] }
      | _ =>
        { status := 500, state := st, returned := none,
          deletedKeys := deleted, puts := [] }

/-- DELETE `/api/todos/:id/photo` (`server.js` lines 272-297): 404 when
the id is unknown or the todo carries no attachment. Otherwise, when the
bucket is configured the photo object is deleted inside the try block: a
thrown `StorageError` reaches the catch, which answers 500 before the
clearing lines run; only when the delete succeeds (or the bucket is
absent) are `hasPhoto`/`photoFilename` cleared and the todo returned. -/
def deleteTodoPhotoHandler (st : ServerState) (id : Nat)
    (bucketConfigured deleteOk : Bool) : ReqResult :=
  match st.todos.find? (fun t => t.id = id) with
  | none =>
    { status := 404, state := st, returned := none, deletedKeys := [], puts := [] }
  | some todo =>
    if ¬(todo.hasPhoto ∧ strTruthy todo.photoFilename) then
      { status := 404, state := st, returned := none, deletedKeys := [], puts := [] }
    else if bucketConfigured ∧ ¬deleteOk then
      { status := 500, state := st, returned := none, deletedKeys := [], puts := [] }
    else
      let todo' := { todo with hasPhoto := false, photoFilename := none }
      let todos' := updateFirst st.todos id
        (fun t => { t with hasPhoto := false, photoFilename := none })
      { status := 200,
        state := { st with todos := todos' },
        returned := some todo',
        deletedKeys := if bucketConfigured then [todo.photoFilename.getD ""] else [],
        puts := [] }

/-- One incoming API request together with the outcomes of the external
calls it makes (oracle booleans for the object store and sharp). -/
inductive Op
  | create (text : Option String) (file : Option FileUpload)
      (bucketConfigured normalizeOk saveOk : Bool) (now : Nat)
  | setCompleted (id : Nat) (completed : CompletedField)
  | deleteTodo (id : Nat) (bucketConfigured deleteOk : Bool)
  | attachPhoto (id : Nat) (file : Option FileUpload)
      (bucketConfigured deleteOk normalizeOk saveOk : Bool) (now : Nat)
  | detachPhoto (id : Nat) (bucketConfigured deleteOk : Bool)
deriving Repr

/-- The state transition performed by one request. -/
def step (st : ServerState) : Op → ServerState
  | .create text file bc nk sk now =>
    (postTodosHandler st text file bc nk sk now).state
  | .setCompleted id c => (putTodoHandler st id c).state
  | .deleteTodo id bc dk => (deleteTodoHandler st id bc dk).state
  | .attachPhoto id file bc dk nk sk now =>
    (postTodoPhotoHandler st id file bc dk nk sk now).state
  | .detachPhoto id bc dk => (deleteTodoPhotoHandler st id bc dk).state

/-- Run a sequence of requests from a state. -/
def run (st : ServerState) : List Op → ServerState
  | [] => st
  | op :: ops => run (step st op) ops

/-- The id/counter invariant maintained by the server: every stored id is
below `nextId`, and ids are pairwise distinct. -/
def IdInv (st : ServerState) : Prop :=
  (∀ t ∈ st.todos, t.id < st.nextId) ∧
  st.todos.Pairwise (fun a b => a.id ≠ b.id)

/-- Full request pipeline for POST `/api/todos`: the `upload.single`
multer middleware runs before the handler; a multer rejection is
answered by the error middleware and the route handler never runs. -/
def postTodosRequest (st : ServerState) (text : Option String)
    (file : Option FileUpload) (bc nk sk : Bool) (now : Nat) : ReqResult :=
  match multerGate file with
  | .accepted f => postTodosHandler st text f bc nk sk now
  | g =>
    { status := (errorMiddlewareStatus g).getD 200, state := st,
      returned := none, deletedKeys := [], puts := [] }

/-- Full request pipeline for POST `/api/todos/:id/photo`, multer
middleware included. -/
def postTodoPhotoRequest (st : ServerState) (id : Nat)
    (file : Option FileUpload) (bc dk nk sk : Bool) (now : Nat) : ReqResult :=
  match multerGate file with
  | .accepted f => postTodoPhotoHandler st id f bc dk nk sk now
  | g =>
    { status := (errorMiddlewareStatus g).getD 200, state := st,
      returned := none, deletedKeys := [], puts := [] }

/-- A todo already holding an attachment, for the replace/detach
scenarios. -/
def linkedTodo : Todo :=
  { id := 1, text := "todo with photo", completed := false,
    hasPhoto := true, photoFilename := some "todos/1/100.jpg" }

/-- A one-todo state whose todo is in the LINKED attachment state. -/
def linkedState : ServerState := { todos := [linkedTodo], nextId := 2 }

/-! ### Helper lemmas about `updateFirst` -/

theorem updateFirst_length (l : List Todo) (id : Nat) (f : Todo → Todo) :
    (updateFirst l id f).length = l.length := by
  induction l with
  | nil => rfl
  | cons t ts ih => by_cases h : t.id = id <;> simp [updateFirst, h, ih]

theorem updateFirst_getElem? (l : List Todo) (id : Nat) (f : Todo → Todo) (i : Nat) :
    (updateFirst l id f)[i]? = l[i]? ∨
    (∃ t, l[i]? = some t ∧ t.id = id ∧ (updateFirst l id f)[i]? = some (f t)) := by
  induction l generalizing i with
  | nil => left; rfl
  | cons t ts ih =>
    by_cases h : t.id = id
    · cases i with
      | zero => right; exact ⟨t, by simp, h, by simp [updateFirst, h]⟩
      | succ n => left; simp [updateFirst, h]
    · cases i with
      | zero => left; simp [updateFirst, h]
      | succ n => simpa [updateFirst, h] using ih n

theorem mem_updateFirst {l : List Todo} {id : Nat} {f : Todo → Todo} {t : Todo}
    (h : t ∈ updateFirst l id f) : t ∈ l ∨ ∃ u ∈ l, u.id = id ∧ t = f u := by
  induction l with
  | nil => simp [updateFirst] at h
  | cons u us ih =>
    by_cases hu : u.id = id
    · simp only [updateFirst, hu, if_pos] at h
      rcases List.mem_cons.mp h with h | h
      · exact Or.inr ⟨u, List.mem_cons_self u us, hu, h⟩
      · exact Or.inl (List.mem_cons_of_mem u h)
    · simp only [updateFirst, hu, if_neg, not_false_iff] at h
      rcases List.mem_cons.mp h with h | h
      · exact Or.inl (h ▸ List.mem_cons_self u us)
      · rcases ih h with h' | ⟨v, hv, hvid, hvt⟩
        · exact Or.inl (List.mem_cons_of_mem u h')
        · exact Or.inr ⟨v, List.mem_cons_of_mem u hv, hvid, hvt⟩

theorem updateFirst_map_id (l : List Todo) (id : Nat) (f : Todo → Todo)
    (hf : ∀ t, (f t).id = t.id) :
    (updateFirst l id f).map (fun t => t.id) = l.map (fun t => t.id) := by
  induction l with
  | nil => rfl
  | cons t ts ih => by_cases h : t.id = id <;> simp [updateFirst, h, ih, hf]

theorem find?_updateFirst (l : List Todo) (id : Nat) (f : Todo → Todo)
    (hf : ∀ t, (f t).id = t.id) :
    (updateFirst l id f).find? (fun t => t.id = id) =
      (l.find? (fun t => t.id = id)).map f := by
  induction l with
  | nil => rfl
  | cons t ts ih =>
    by_cases h : t.id = id
    · simp [updateFirst, h, List.find?_cons, hf]
    · simp [updateFirst, h, List.find?_cons, ih]

/-! ### Claim theorems -/

/-- C6: a `text` that is absent, empty, or whitespace-only after trimming
makes POST `/api/todos` answer 400 with the state (todo collection and id
counter) unchanged; any other text creates a todo holding the trimmed
text with `completed = false`, appended to the collection. -/
theorem create_validates_text (st : ServerState) (text : Option String)
    (file : Option FileUpload) (bc nk sk : Bool) (now : Nat) :
    (textInvalid text = true →
      (postTodosHandler st text file bc nk sk now).status = 400 ∧
      (postTodosHandler st text file bc nk sk now).state = st) ∧
    (∀ s, text = some s → textInvalid text = false →
      ∃ nt, (postTodosHandler st text file bc nk sk now).returned = some nt ∧
        nt.text = trimStr s ∧ nt.completed = false ∧
        (postTodosHandler st text file bc nk sk now).status = 201 ∧
        (postTodosHandler st text file bc nk sk now).state.todos = st.todos ++ [nt]) := by
  constructor
  · intro h
    simp [postTodosHandler, h]
  · intro s hs hv
    subst hs
    cases file with
    | none =>
      exact ⟨⟨st.nextId, trimStr s, false, false, none⟩,
        by simp [postTodosHandler, hv], rfl, rfl,
        by simp [postTodosHandler, hv], by simp [postTodosHandler, hv]⟩
    | some f =>
      cases bc with
      | false =>
        exact ⟨⟨st.nextId, trimStr s, false, false, none⟩,
          by simp [postTodosHandler, hv], rfl, rfl,
          by simp [postTodosHandler, hv], by simp [postTodosHandler, hv]⟩
      | true =>
        cases nk with
        | false =>
          exact ⟨⟨st.nextId, trimStr s, false, false, none⟩,
            by simp [postTodosHandler, hv, uploadPhotoToGCS], rfl, rfl,
            by simp [postTodosHandler, hv, uploadPhotoToGCS],
            by simp [postTodosHandler, hv, uploadPhotoToGCS]⟩
        | true =>
          cases sk with
          | false =>
            exact ⟨⟨st.nextId, trimStr s, false, false, none⟩,
              by simp [postTodosHandler, hv, uploadPhotoToGCS], rfl, rfl,
              by simp [postTodosHandler, hv, uploadPhotoToGCS],
              by simp [postTodosHandler, hv, uploadPhotoToGCS]⟩
          | true =>
            exact ⟨⟨st.nextId, trimStr s, false, true, some (photoKey st.nextId now)⟩,
              by simp [postTodosHandler, hv, uploadPhotoToGCS], rfl, rfl,
              by simp [postTodosHandler, hv, uploadPhotoToGCS],
              by simp [postTodosHandler, hv, uploadPhotoToGCS]⟩

/-- C6 witness: `create` at a concrete blank text is refused with the
state untouched, and at a concrete valid text yields the trimmed todo. -/
theorem create_validates_text_witness :
    textInvalid (some "   ") = true ∧
    (postTodosHandler initialState (some "   ") none true true true 0).status = 400 ∧
    textInvalid (some "  buy milk ") = false ∧
    ∃ nt, (postTodosHandler initialState (some "  buy milk ") none true true true 0).returned = some nt ∧
      nt.text = trimStr "  buy milk " ∧ nt.completed = false := by
  refine ⟨rfl, ((create_validates_text initialState (some "   ") none true true true 0).1 rfl).1,
    rfl, ?_⟩
  obtain ⟨nt, h1, h2, h3, -, -⟩ :=
    (create_validates_text initialState (some "  buy milk ") none true true true 0).2 _ rfl rfl
  exact ⟨nt, h1, h2, h3⟩

/-- C8: PUT `/api/todos/:id` answers 404 and changes nothing when the id
is unknown; when the id exists, a boolean body value updates `completed`
and the updated record is returned and stored, while an absent or
non-boolean value is a silent no-op answering 200 with the unchanged
record and unchanged state. -/
theorem setCompleted_spec (st : ServerState) (id : Nat) (c : CompletedField) :
    (st.todos.find? (fun t => t.id = id) = none →
      (putTodoHandler st id c).status = 404 ∧ (putTodoHandler st id c).state = st) ∧
    (∀ todo, st.todos.find? (fun t => t.id = id) = some todo →
      (∀ b, c = .boolVal b →
        (putTodoHandler st id c).status = 200 ∧
        (putTodoHandler st id c).returned = some { todo with completed := b } ∧
        (putTodoHandler st id c).state.todos.find? (fun t => t.id = id) =
          some { todo with completed := b } ∧
        (putTodoHandler st id c).state.nextId = st.nextId) ∧
      ((c = .absent ∨ c = .nonBool) →
        (putTodoHandler st id c).status = 200 ∧
        (putTodoHandler st id c).returned = some todo ∧
        (putTodoHandler st id c).state = st)) := by
  constructor
  · intro h
    simp [putTodoHandler, h]
  · intro todo hfind
    constructor
    · intro b hb
      subst hb
      refine ⟨by simp [putTodoHandler, hfind], by simp [putTodoHandler, hfind], ?_,
        by simp [putTodoHandler, hfind]⟩
      simp only [putTodoHandler, hfind]
      rw [find?_updateFirst st.todos id (fun t => { t with completed := b }) (fun t => rfl),
        hfind]
      rfl
    · intro hc
      rcases hc with hc | hc <;> subst hc <;> simp [putTodoHandler, hfind]

/-- C8 witness: updating seed todo 1 with `completed = true` succeeds and
returns the toggled record; updating it with a non-boolean body is a
200 no-op; an unknown id gives 404. -/
theorem setCompleted_spec_witness :
    initialState.todos.find? (fun t => t.id = 1) =
      some ⟨1, "Welcome to your todo app!", false, false, none⟩ ∧
    (putTodoHandler initialState 1 (.boolVal true)).status = 200 ∧
    (putTodoHandler initialState 1 (.boolVal true)).returned =
      some ⟨1, "Welcome to your todo app!", true, false, none⟩ ∧
    (putTodoHandler initialState 1 .nonBool).returned =
      some ⟨1, "Welcome to your todo app!", false, false, none⟩ ∧
    (putTodoHandler initialState 1 .nonBool).state = initialState ∧
    initialState.todos.find? (fun t => t.id = 99) = none ∧
    (putTodoHandler initialState 99 .absent).status = 404 := by
  have h : initialState.todos.find? (fun t => t.id = 1) =
      some ⟨1, "Welcome to your todo app!", false, false, none⟩ := by decide
  have h99 : initialState.todos.find? (fun t => t.id = 99) = none := by decide
  refine ⟨h, ?_, ?_, ?_, ?_, h99, ?_⟩
  · exact (((setCompleted_spec initialState 1 (.boolVal true)).2 _ h).1 true rfl).1
  · exact (((setCompleted_spec initialState 1 (.boolVal true)).2 _ h).1 true rfl).2.1
  · exact (((setCompleted_spec initialState 1 .nonBool).2 _ h).2 (Or.inr rfl)).2.1
  · exact (((setCompleted_spec initialState 1 .nonBool).2 _ h).2 (Or.inr rfl)).2.2
  · exact ((setCompleted_spec initialState 99 .absent).1 h99).1

/-- C10: PUT `/api/todos/:id` never changes the id counter, the length of
the collection, or any field other than `completed`: positionally, each
stored todo keeps its `id`, `text`, `hasPhoto` and `photoFilename`, and a
todo whose id is not the targeted one is wholly unchanged. -/
theorem put_frame (st : ServerState) (id : Nat) (c : CompletedField) :
    (putTodoHandler st id c).state.nextId = st.nextId ∧
    (putTodoHandler st id c).state.todos.length = st.todos.length ∧
    (∀ (i : Nat) (t : Todo), st.todos[i]? = some t →
      ∃ u, (putTodoHandler st id c).state.todos[i]? = some u ∧
        u.id = t.id ∧ u.text = t.text ∧ u.hasPhoto = t.hasPhoto ∧
        u.photoFilename = t.photoFilename ∧ (t.id ≠ id → u = t)) := by
  have hmain : ∀ (i : Nat) (t : Todo), st.todos[i]? = some t →
      ∃ u, (putTodoHandler st id c).state.todos[i]? = some u ∧
        u.id = t.id ∧ u.text = t.text ∧ u.hasPhoto = t.hasPhoto ∧
        u.photoFilename = t.photoFilename ∧ (t.id ≠ id → u = t) := by
    intro i t ht
    rcases hfind : st.todos.find? (fun t => t.id = id) with _ | todo
    · exact ⟨t, by simp [putTodoHandler, hfind, ht], rfl, rfl, rfl, rfl, fun _ => rfl⟩
    · cases c with
      | boolVal b =>
        rcases updateFirst_getElem? st.todos id (fun t => { t with completed := b }) i with
          h | ⟨t', ht', hid, hu⟩
        · refine ⟨t, ?_, rfl, rfl, rfl, rfl, fun _ => rfl⟩
          simp only [putTodoHandler, hfind]
          exact h.trans ht
        · have htt : t' = t := Option.some.inj (ht'.symm.trans ht)
          subst htt
          refine ⟨{ t' with completed := b }, ?_, rfl, rfl, rfl, rfl,
            fun hne => absurd hid hne⟩
          simp only [putTodoHandler, hfind]
          exact hu
      | absent =>
        exact ⟨t, by simp [putTodoHandler, hfind, ht], rfl, rfl, rfl, rfl, fun _ => rfl⟩
      | nonBool =>
        exact ⟨t, by simp [putTodoHandler, hfind, ht], rfl, rfl, rfl, rfl, fun _ => rfl⟩
  refine ⟨?_, ?_, hmain⟩
  · rcases hfind : st.todos.find? (fun t => t.id = id) with _ | todo <;>
      cases c <;> simp [putTodoHandler, hfind]
  · rcases hfind : st.todos.find? (fun t => t.id = id) with _ | todo <;>
      cases c <;> simp [putTodoHandler, hfind, updateFirst_length]

/-- C10 witness: toggling seed todo 1 leaves seed todo 2 (position 1)
untouched and preserves the non-completed fields at position 0. -/
theorem put_frame_witness :
    initialState.todos[0]? = some ⟨1, "Welcome to your todo app!", false, false, none⟩ ∧
    initialState.todos[1]? = some ⟨2, "Add your first todo", false, false, none⟩ ∧
    (∃ u, (putTodoHandler initialState 1 (.boolVal true)).state.todos[1]? = some u ∧
      u = ⟨2, "Add your first todo", false, false, none⟩) ∧
    (∃ u, (putTodoHandler initialState 1 (.boolVal true)).state.todos[0]? = some u ∧
      u.text = "Welcome to your todo app!" ∧ u.hasPhoto = false) := by
  refine ⟨by decide, by decide, ?_, ?_⟩
  · obtain ⟨u, hu, -, -, -, -, hid⟩ :=
      (put_frame initialState 1 (.boolVal true)).2.2 1
        ⟨2, "Add your first todo", false, false, none⟩ (by decide)
    exact ⟨u, hu, hid (by decide)⟩
  · obtain ⟨u, hu, -, htext, hph, -, -⟩ :=
      (put_frame initialState 1 (.boolVal true)).2.2 0
        ⟨1, "Welcome to your todo app!", false, false, none⟩ (by decide)
    exact ⟨u, hu, htext, hph⟩

/-- Removing the element matched by an id under pairwise-distinct ids:
membership in the erased list is membership plus a different id. -/
theorem mem_eraseP_id {l : List Todo} {id : Nat}
    (hp : l.Pairwise (fun a b => a.id ≠ b.id)) (t : Todo) :
    t ∈ l.eraseP (fun u => u.id = id) ↔ (t ∈ l ∧ t.id ≠ id) := by
  induction l with
  | nil => simp
  | cons u us ih =>
    rcases List.pairwise_cons.mp hp with ⟨hu, hus⟩
    by_cases h : u.id = id
    · rw [show (u :: us).eraseP (fun u => u.id = id) = us by simp [List.eraseP_cons, h]]
      constructor
      · intro htm
        refine ⟨List.mem_cons_of_mem u htm, fun hid => ?_⟩
        exact (hu t htm) (by rw [h, hid])
      · rintro ⟨htm, hid⟩
        rcases List.mem_cons.mp htm with rfl | htm
        · exact absurd h hid
        · exact htm
    · rw [show (u :: us).eraseP (fun u => u.id = id) =
          u :: us.eraseP (fun u => u.id = id) by simp [List.eraseP_cons, h]]
      constructor
      · intro htm
        rcases List.mem_cons.mp htm with rfl | htm
        · exact ⟨List.mem_cons_self _ _, h⟩
        · have h' := (ih hus).mp htm
          exact ⟨List.mem_cons_of_mem u h'.1, h'.2⟩
      · rintro ⟨htm, hid⟩
        rcases List.mem_cons.mp htm with rfl | htm
        · exact List.mem_cons_self _ _
        · exact List.mem_cons_of_mem u ((ih hus).mpr ⟨htm, hid⟩)

/-- C7: DELETE `/api/todos/:id` on a known id always removes the todo
and answers 204 with an empty body — for every outcome of the
object-store cleanup (`bc`, `dk` are universally quantified, so a failed
or skipped photo delete never blocks removal); an unknown id answers 404
with the state unchanged. -/
theorem delete_todo_spec (st : ServerState) (id : Nat) (bc dk : Bool) :
    (st.todos.find? (fun t => t.id = id) = none →
      (deleteTodoHandler st id bc dk).status = 404 ∧
      (deleteTodoHandler st id bc dk).state = st) ∧
    (∀ todo, st.todos.find? (fun t => t.id = id) = some todo →
      (deleteTodoHandler st id bc dk).status = 204 ∧
      (deleteTodoHandler st id bc dk).returned = none ∧
      (deleteTodoHandler st id bc dk).state.nextId = st.nextId ∧
      (st.todos.Pairwise (fun a b => a.id ≠ b.id) →
        ∀ t, t ∈ (deleteTodoHandler st id bc dk).state.todos ↔
          (t ∈ st.todos ∧ t.id ≠ id))) := by
  constructor
  · intro h
    simp [deleteTodoHandler, h]
  · intro todo hfind
    refine ⟨by simp [deleteTodoHandler, hfind], by simp [deleteTodoHandler, hfind],
      by simp [deleteTodoHandler, hfind], ?_⟩
    intro hp t
    simp only [deleteTodoHandler, hfind]
    exact mem_eraseP_id hp t

/-- C7 witness: deleting seed todo 1 while the photo-delete call fails
still answers 204, removing todo 1 and keeping todo 2; deleting the
unknown id 99 answers 404 and leaves the state alone. -/
theorem delete_todo_spec_witness :
    initialState.todos.find? (fun t => t.id = 1) =
      some ⟨1, "Welcome to your todo app!", false, false, none⟩ ∧
    (deleteTodoHandler initialState 1 true false).status = 204 ∧
    (¬ (⟨1, "Welcome to your todo app!", false, false, none⟩ : Todo) ∈
        (deleteTodoHandler initialState 1 true false).state.todos) ∧
    ((⟨2, "Add your first todo", false, false, none⟩ : Todo) ∈
        (deleteTodoHandler initialState 1 true false).state.todos) ∧
    initialState.todos.find? (fun t => t.id = 99) = none ∧
    (deleteTodoHandler initialState 99 true true).status = 404 ∧
    (deleteTodoHandler initialState 99 true true).state = initialState := by
  have h : initialState.todos.find? (fun t => t.id = 1) =
      some ⟨1, "Welcome to your todo app!", false, false, none⟩ := by decide
  have h99 : initialState.todos.find? (fun t => t.id = 99) = none := by decide
  have hpw : initialState.todos.Pairwise (fun a b => a.id ≠ b.id) := by decide
  obtain ⟨hs, -, -, hmem⟩ := (delete_todo_spec initialState 1 true false).2 _ h
  refine ⟨h, hs, ?_, ?_, h99, ((delete_todo_spec initialState 99 true true).1 h99).1,
    ((delete_todo_spec initialState 99 true true).1 h99).2⟩
  · intro hin
    exact absurd ((hmem hpw _).mp hin).2 (by decide)
  · exact (hmem hpw _).mpr ⟨by decide, by decide⟩

/-- C3: the asymmetric photo-failure policy. When the text is valid and a
photo accompanies POST `/api/todos`, a missing bucket or a failing
normalization/store call still creates the todo, answered 201 with
`hasPhoto = false` and no filename; the same failure on the dedicated
POST `/api/todos/:id/photo` endpoint for an existing todo answers 500. -/
theorem attach_failure_asymmetry (st : ServerState) (s : String)
    (f : FileUpload) (bc nk sk dk : Bool) (now : Nat)
    (hvalid : textInvalid (some s) = false)
    (hfail : bc = false ∨ nk = false ∨ sk = false) :
    ((postTodosHandler st (some s) (some f) bc nk sk now).status = 201 ∧
     ∃ nt, (postTodosHandler st (some s) (some f) bc nk sk now).returned = some nt ∧
       nt.hasPhoto = false ∧ nt.photoFilename = none) ∧
    (∀ id todo, st.todos.find? (fun t => t.id = id) = some todo →
      (postTodoPhotoHandler st id (some f) bc dk nk sk now).status = 500) := by
  constructor
  · rcases hfail with rfl | rfl | rfl
    · exact ⟨by simp [postTodosHandler, hvalid],
        ⟨st.nextId, trimStr s, false, false, none⟩,
        by simp [postTodosHandler, hvalid], rfl, rfl⟩
    · cases bc <;>
        exact ⟨by simp [postTodosHandler, hvalid, uploadPhotoToGCS],
          ⟨st.nextId, trimStr s, false, false, none⟩,
          by simp [postTodosHandler, hvalid, uploadPhotoToGCS], rfl, rfl⟩
    · cases bc <;> cases nk <;>
        exact ⟨by simp [postTodosHandler, hvalid, uploadPhotoToGCS],
          ⟨st.nextId, trimStr s, false, false, none⟩,
          by simp [postTodosHandler, hvalid, uploadPhotoToGCS], rfl, rfl⟩
  · intro id todo hfind
    rcases hfail with rfl | rfl | rfl
    · simp [postTodoPhotoHandler, hfind]
    · cases bc <;> simp [postTodoPhotoHandler, hfind, uploadPhotoToGCS]
    · cases bc <;> cases nk <;> simp [postTodoPhotoHandler, hfind, uploadPhotoToGCS]

/-- C3 witness: with the store unconfigured, creating "milk run" with a
photo still answers 201 without a photo, while POSTing the same photo to
seed todo 1 answers 500. -/
theorem attach_failure_asymmetry_witness :
    textInvalid (some "milk run") = false ∧
    (postTodosHandler initialState (some "milk run") (some ⟨"image/jpeg", 10⟩)
        false true true 7).status = 201 ∧
    (∃ nt, (postTodosHandler initialState (some "milk run") (some ⟨"image/jpeg", 10⟩)
        false true true 7).returned = some nt ∧ nt.hasPhoto = false) ∧
    initialState.todos.find? (fun t => t.id = 1) =
      some ⟨1, "Welcome to your todo app!", false, false, none⟩ ∧
    (postTodoPhotoHandler initialState 1 (some ⟨"image/jpeg", 10⟩)
        false true true true 7).status = 500 := by
  have h : initialState.todos.find? (fun t => t.id = 1) =
      some ⟨1, "Welcome to your todo app!", false, false, none⟩ := by decide
  obtain ⟨⟨hc, nt, hr, hph, -⟩, hd⟩ :=
    attach_failure_asymmetry initialState "milk run" ⟨"image/jpeg", 10⟩
      false true true true 7 rfl (Or.inl rfl)
  exact ⟨rfl, hc, ⟨nt, hr, hph⟩, h, hd 1 _ h⟩

/-- C9: every successful attach stores the normalized bytes at the key
`todos/<todoId>/<epochMillis>.jpg`, derived from the owning todo's id and
the current time, with content type `image/jpeg`, and records exactly
that key on the todo — on the dedicated endpoint and on the
attach-during-create path alike. -/
theorem storage_key_spec (st : ServerState) (id : Nat) (f : FileUpload)
    (dk : Bool) (now : Nat) (s : String)
    (hvalid : textInvalid (some s) = false) :
    (∀ todo, st.todos.find? (fun t => t.id = id) = some todo →
      todo.id = id ∧
      (postTodoPhotoHandler st id (some f) true dk true true now).status = 200 ∧
      (∃ todo', (postTodoPhotoHandler st id (some f) true dk true true now).returned =
          some todo' ∧
        todo'.id = todo.id ∧
        todo'.photoFilename =
          some ("todos/" ++ toString id ++ "/" ++ toString now ++ ".jpg")) ∧
      (postTodoPhotoHandler st id (some f) true dk true true now).puts =
        [{ key := "todos/" ++ toString id ++ "/" ++ toString now ++ ".jpg",
           contentType := "image/jpeg" }]) ∧
    ((postTodosHandler st (some s) (some f) true true true now).puts =
        [{ key := "todos/" ++ toString st.nextId ++ "/" ++ toString now ++ ".jpg",
           contentType := "image/jpeg" }] ∧
     ∃ nt, (postTodosHandler st (some s) (some f) true true true now).returned = some nt ∧
       nt.id = st.nextId ∧
       nt.photoFilename =
         some ("todos/" ++ toString st.nextId ++ "/" ++ toString now ++ ".jpg")) := by
  constructor
  · intro todo hfind
    have hid : todo.id = id := by
      have := List.find?_some hfind
      simpa using this
    refine ⟨hid, by simp [postTodoPhotoHandler, hfind, uploadPhotoToGCS], ?_, ?_⟩
    · exact ⟨{ todo with hasPhoto := true, photoFilename := some (photoKey id now) },
        by simp [postTodoPhotoHandler, hfind, uploadPhotoToGCS], rfl, rfl⟩
    · simp [postTodoPhotoHandler, hfind, uploadPhotoToGCS, photoKey]
  · refine ⟨by simp [postTodosHandler, hvalid, uploadPhotoToGCS, photoKey], ?_⟩
    exact ⟨⟨st.nextId, trimStr s, false, true, some (photoKey st.nextId now)⟩,
      by simp [postTodosHandler, hvalid, uploadPhotoToGCS], rfl, rfl⟩

/-- C9 witness: attaching a photo to seed todo 1 at time 1234 stores and
links exactly the key `todos/1/1234.jpg` with content type `image/jpeg`. -/
theorem storage_key_spec_witness :
    initialState.todos.find? (fun t => t.id = 1) =
      some ⟨1, "Welcome to your todo app!", false, false, none⟩ ∧
    (∃ todo', (postTodoPhotoHandler initialState 1 (some ⟨"image/jpeg", 10⟩)
        true true true true 1234).returned = some todo' ∧
      todo'.photoFilename = some "todos/1/1234.jpg") ∧
    (postTodoPhotoHandler initialState 1 (some ⟨"image/jpeg", 10⟩)
        true true true true 1234).puts =
      [{ key := "todos/1/1234.jpg", contentType := "image/jpeg" }] := by
  have h : initialState.todos.find? (fun t => t.id = 1) =
      some ⟨1, "Welcome to your todo app!", false, false, none⟩ := by decide
  obtain ⟨-, -, ⟨todo', hr, -, hfn⟩, hput⟩ :=
    (storage_key_spec initialState 1 ⟨"image/jpeg", 10⟩ true 1234 "x" rfl).1 _ h
  refine ⟨h, ⟨todo', hr, ?_⟩, ?_⟩
  · rw [hfn]; decide
  · rw [hput]; decide

/-- C1 counterexample: replacing the photo of todo 1 while the old key's
delete succeeds and the new store fails answers 500 yet leaves the todo
still referencing `todos/1/100.jpg` — the very key just recorded as
deleted. The attachment state is a dangling reference, not EMPTY, so the
claim that it never references a deleted key is false on the code. -/
theorem replace_dangling_reference_cex :
    (postTodoPhotoHandler linkedState 1 (some ⟨"image/jpeg", 10⟩)
        true true true false 200).status = 500 ∧
    (postTodoPhotoHandler linkedState 1 (some ⟨"image/jpeg", 10⟩)
        true true true false 200).deletedKeys = ["todos/1/100.jpg"] ∧
    (postTodoPhotoHandler linkedState 1 (some ⟨"image/jpeg", 10⟩)
        true true true false 200).state.todos.find? (fun t => t.id = 1) =
      some linkedTodo ∧
    linkedTodo.hasPhoto = true ∧
    linkedTodo.photoFilename = some "todos/1/100.jpg" := by
  decide

/-- C1 amended: when the new store fails during a replace, the handler
answers 500 and leaves the todo collection exactly as it was — so a todo
whose old key was already deleted keeps a dangling reference to that
key, rather than ending EMPTY; and whenever the handler links a
filename, that filename was successfully stored with content type
`image/jpeg` (never a key that was never stored). -/
theorem replace_failure_amended (st : ServerState) (id : Nat)
    (f : FileUpload) (bc dk nk : Bool) (now : Nat) :
    ((postTodoPhotoHandler st id (some f) bc dk nk false now).state = st) ∧
    (∀ todo, st.todos.find? (fun t => t.id = id) = some todo → bc = true →
      (postTodoPhotoHandler st id (some f) bc dk nk false now).status = 500) ∧
    (∀ sk todo',
      (postTodoPhotoHandler st id (some f) bc dk nk sk now).returned = some todo' →
      ∃ k, todo'.photoFilename = some k ∧
        ({ key := k, contentType := "image/jpeg" } : PutCall) ∈
          (postTodoPhotoHandler st id (some f) bc dk nk sk now).puts) := by
  refine ⟨?_, ?_, ?_⟩
  · rcases hfind : st.todos.find? (fun t => t.id = id) with _ | todo
    · simp [postTodoPhotoHandler, hfind]
    · cases bc <;> cases nk <;>
        simp [postTodoPhotoHandler, hfind, uploadPhotoToGCS]
  · intro todo hfind hbc
    subst hbc
    cases nk <;> simp [postTodoPhotoHandler, hfind, uploadPhotoToGCS]
  · intro sk todo' hret
    rcases hfind : st.todos.find? (fun t => t.id = id) with _ | todo
    · simp [postTodoPhotoHandler, hfind] at hret
    · cases bc with
      | false => simp [postTodoPhotoHandler, hfind] at hret
      | true =>
        cases nk with
        | false => simp [postTodoPhotoHandler, hfind, uploadPhotoToGCS] at hret
        | true =>
          cases sk with
          | false => simp [postTodoPhotoHandler, hfind, uploadPhotoToGCS] at hret
          | true =>
            simp [postTodoPhotoHandler, hfind, uploadPhotoToGCS] at hret
            subst hret
            refine ⟨photoKey id now, rfl, ?_⟩
            simp [postTodoPhotoHandler, hfind, uploadPhotoToGCS]

/-- C1 amended witness: the concrete failed replace leaves the linked
state untouched with status 500, and a concrete successful replace links
exactly the key it stored. -/
theorem replace_failure_amended_witness :
    linkedState.todos.find? (fun t => t.id = 1) = some linkedTodo ∧
    (postTodoPhotoHandler linkedState 1 (some ⟨"image/jpeg", 10⟩)
        true true true false 200).state = linkedState ∧
    (postTodoPhotoHandler linkedState 1 (some ⟨"image/jpeg", 10⟩)
        true true true false 200).status = 500 ∧
    (postTodoPhotoHandler linkedState 1 (some ⟨"image/jpeg", 10⟩)
        true true true true 200).returned =
      some { linkedTodo with hasPhoto := true, photoFilename := some "todos/1/200.jpg" } ∧
    ∃ k, ({ linkedTodo with hasPhoto := true, photoFilename := some "todos/1/200.jpg" } : Todo).photoFilename = some k ∧
      ({ key := k, contentType := "image/jpeg" } : PutCall) ∈
        (postTodoPhotoHandler linkedState 1 (some ⟨"image/jpeg", 10⟩)
          true true true true 200).puts := by
  have hfind : linkedState.todos.find? (fun t => t.id = 1) = some linkedTodo := by decide
  have hret : (postTodoPhotoHandler linkedState 1 (some ⟨"image/jpeg", 10⟩)
      true true true true 200).returned =
      some { linkedTodo with hasPhoto := true, photoFilename := some "todos/1/200.jpg" } := by
    decide
  refine ⟨hfind,
    (replace_failure_amended linkedState 1 ⟨"image/jpeg", 10⟩ true true true 200).1,
    (replace_failure_amended linkedState 1 ⟨"image/jpeg", 10⟩ true true true 200).2.1
      linkedTodo hfind rfl,
    hret,
    (replace_failure_amended linkedState 1 ⟨"image/jpeg", 10⟩ true true true 200).2.2
      true _ hret⟩

/-- C2 counterexample: detaching the photo of todo 1 while the store
delete fails answers 500 and leaves `hasPhoto = true` with the filename
still set — the attachment fields are not cleared, so the claim that
detach always clears them regardless of the delete outcome is false on
the code. -/
theorem detach_not_always_cleared_cex :
    (deleteTodoPhotoHandler linkedState 1 true false).status = 500 ∧
    (deleteTodoPhotoHandler linkedState 1 true false).state.todos.find?
        (fun t => t.id = 1) = some linkedTodo ∧
    linkedTodo.hasPhoto = true ∧
    linkedTodo.photoFilename = some "todos/1/100.jpg" := by
  decide

/-- C2 amended: detach answers 404 when the todo is unknown or carries
no attachment; with an attachment present it clears the attachment
fields and answers 200 when the store is unconfigured (treated as
already-absent) or the delete succeeds, but when the configured store's
delete fails it answers 500 and leaves the attachment fields set. -/
theorem detach_spec_amended (st : ServerState) (id : Nat) (bc dk : Bool) :
    (st.todos.find? (fun t => t.id = id) = none →
      (deleteTodoPhotoHandler st id bc dk).status = 404 ∧
      (deleteTodoPhotoHandler st id bc dk).state = st) ∧
    (∀ todo, st.todos.find? (fun t => t.id = id) = some todo →
      (¬(todo.hasPhoto = true ∧ strTruthy todo.photoFilename = true) →
        (deleteTodoPhotoHandler st id bc dk).status = 404 ∧
        (deleteTodoPhotoHandler st id bc dk).state = st) ∧
      (todo.hasPhoto = true → strTruthy todo.photoFilename = true →
        ((bc = false ∨ dk = true) →
          (deleteTodoPhotoHandler st id bc dk).status = 200 ∧
          (deleteTodoPhotoHandler st id bc dk).returned =
            some { todo with hasPhoto := false, photoFilename := none } ∧
          (deleteTodoPhotoHandler st id bc dk).state.todos.find?
              (fun t => t.id = id) =
            some { todo with hasPhoto := false, photoFilename := none }) ∧
        (bc = true → dk = false →
          (deleteTodoPhotoHandler st id bc dk).status = 500 ∧
          (deleteTodoPhotoHandler st id bc dk).state = st))) := by
  constructor
  · intro h
    simp [deleteTodoPhotoHandler, h]
  · intro todo hfind
    constructor
    · intro hno
      have hcond : ¬(todo.hasPhoto = true ∧ strTruthy todo.photoFilename = true) := hno
      simp only [deleteTodoPhotoHandler, hfind]
      rw [if_pos]
      · exact ⟨rfl, rfl⟩
      · simpa using hcond
    · intro hph hfn
      constructor
      · intro hok
        have hnot : ¬¬(todo.hasPhoto = true ∧ strTruthy todo.photoFilename = true) :=
          not_not_intro ⟨hph, hfn⟩
        have hfind' : (updateFirst st.todos id
            (fun t => { t with hasPhoto := false, photoFilename := none })).find?
              (fun t => t.id = id) =
            some { todo with hasPhoto := false, photoFilename := none } := by
          rw [find?_updateFirst st.todos id
            (fun t => { t with hasPhoto := false, photoFilename := none })
            (fun t => rfl), hfind]
          rfl
        rcases hok with rfl | rfl
        · refine ⟨?_, ?_, ?_⟩ <;>
            simp [deleteTodoPhotoHandler, hfind, hph, hfn, hfind']
        · cases bc <;> refine ⟨?_, ?_, ?_⟩ <;>
            simp [deleteTodoPhotoHandler, hfind, hph, hfn, hfind']
      · rintro rfl rfl
        refine ⟨?_, ?_⟩ <;> simp [deleteTodoPhotoHandler, hfind, hph, hfn]

/-- C2 amended witness: with the store unconfigured the concrete detach
clears the fields and answers 200; with a configured store whose delete
fails it answers 500 leaving the state alone; a todo without an
attachment answers 404. -/
theorem detach_spec_amended_witness :
    linkedState.todos.find? (fun t => t.id = 1) = some linkedTodo ∧
    (deleteTodoPhotoHandler linkedState 1 false false).status = 200 ∧
    (deleteTodoPhotoHandler linkedState 1 false false).returned =
      some { linkedTodo with hasPhoto := false, photoFilename := none } ∧
    (deleteTodoPhotoHandler linkedState 1 true false).status = 500 ∧
    (deleteTodoPhotoHandler linkedState 1 true false).state = linkedState ∧
    initialState.todos.find? (fun t => t.id = 1) =
      some ⟨1, "Welcome to your todo app!", false, false, none⟩ ∧
    (deleteTodoPhotoHandler initialState 1 true true).status = 404 := by
  have hfind : linkedState.todos.find? (fun t => t.id = 1) = some linkedTodo := by decide
  have hseed : initialState.todos.find? (fun t => t.id = 1) =
      some ⟨1, "Welcome to your todo app!", false, false, none⟩ := by decide
  obtain ⟨hok, hfail⟩ :=
    ((detach_spec_amended linkedState 1 false false).2 linkedTodo hfind).2 rfl rfl
  obtain ⟨hok', hfail'⟩ :=
    ((detach_spec_amended linkedState 1 true false).2 linkedTodo hfind).2 rfl rfl
  obtain ⟨h404, -⟩ :=
    ((detach_spec_amended initialState 1 true true).2 _ hseed).1 (by decide)
  exact ⟨hfind, (hok (Or.inl rfl)).1, (hok (Or.inl rfl)).2.1,
    (hfail' rfl rfl).1, (hfail' rfl rfl).2, hseed, h404⟩

/-- C4 counterexample: a PNG upload is rejected by the multer
`fileFilter` with a plain `Error`, which the error middleware's generic
branch answers with status 500 — not the claimed 400-class
`ValidationError` — though indeed with no side effects. -/
theorem upload_validation_cex :
    multerGate (some ⟨"image/png", 100⟩) = .filterError ∧
    (postTodoPhotoRequest linkedState 1 (some ⟨"image/png", 100⟩)
        true true true true 200).status = 500 ∧
    ¬(postTodoPhotoRequest linkedState 1 (some ⟨"image/png", 100⟩)
        true true true true 200).status = 400 := by
  decide

/-- C4 amended: an upload whose mimeType is not exactly `image/jpeg` is
rejected by the `fileFilter` with a plain `Error` and answered 500 (the
error middleware's 400 applies only to `MulterError`s); an upload within
the accepted type but over the 5 MiB cap is rejected by the multer limit
with a `MulterError` and answered 400; in both cases the route handler
never runs, so no normalization, no store operation, and no change to
any todo happens, on the create and the dedicated photo endpoint alike. -/
theorem upload_validation_amended (st : ServerState) (id : Nat)
    (text : Option String) (f : FileUpload) (bc dk nk sk : Bool) (now : Nat) :
    (f.mimeType ≠ "image/jpeg" →
      (postTodoPhotoRequest st id (some f) bc dk nk sk now).status = 500 ∧
      (postTodoPhotoRequest st id (some f) bc dk nk sk now).state = st ∧
      (postTodoPhotoRequest st id (some f) bc dk nk sk now).deletedKeys = [] ∧
      (postTodoPhotoRequest st id (some f) bc dk nk sk now).puts = [] ∧
      (postTodosRequest st text (some f) bc nk sk now).status = 500 ∧
      (postTodosRequest st text (some f) bc nk sk now).state = st ∧
      (postTodosRequest st text (some f) bc nk sk now).puts = []) ∧
    (f.mimeType = "image/jpeg" → f.size > 5 * 1024 * 1024 →
      (postTodoPhotoRequest st id (some f) bc dk nk sk now).status = 400 ∧
      (postTodoPhotoRequest st id (some f) bc dk nk sk now).state = st ∧
      (postTodoPhotoRequest st id (some f) bc dk nk sk now).deletedKeys = [] ∧
      (postTodoPhotoRequest st id (some f) bc dk nk sk now).puts = [] ∧
      (postTodosRequest st text (some f) bc nk sk now).status = 400 ∧
      (postTodosRequest st text (some f) bc nk sk now).state = st ∧
      (postTodosRequest st text (some f) bc nk sk now).puts = []) := by
  constructor
  · intro hmime
    refine ⟨?_, ?_, ?_, ?_, ?_, ?_, ?_⟩ <;>
      simp [postTodoPhotoRequest, postTodosRequest, multerGate, hmime,
        errorMiddlewareStatus]
  · intro hmime hsize
    refine ⟨?_, ?_, ?_, ?_, ?_, ?_, ?_⟩ <;>
      simp [postTodoPhotoRequest, postTodosRequest, multerGate, hmime, hsize,
        errorMiddlewareStatus]

/-- C4 amended witness: a concrete PNG upload is answered 500 and a
concrete 6 MiB JPEG upload is answered 400, both leaving the state and
the store untouched on both endpoints. -/
theorem upload_validation_amended_witness :
    ("image/png" : String) ≠ "image/jpeg" ∧
    (postTodoPhotoRequest linkedState 1 (some ⟨"image/png", 100⟩)
        true true true true 7).status = 500 ∧
    (postTodosRequest linkedState (some "hi") (some ⟨"image/png", 100⟩)
        true true true 7).state = linkedState ∧
    (6 * 1024 * 1024 : Nat) > 5 * 1024 * 1024 ∧
    (postTodoPhotoRequest linkedState 1 (some ⟨"image/jpeg", 6 * 1024 * 1024⟩)
        true true true true 7).status = 400 ∧
    (postTodosRequest linkedState (some "hi") (some ⟨"image/jpeg", 6 * 1024 * 1024⟩)
        true true true 7).puts = [] := by
  have h1 := upload_validation_amended linkedState 1 (some "hi")
    ⟨"image/png", 100⟩ true true true true 7
  have h2 := upload_validation_amended linkedState 1 (some "hi")
    ⟨"image/jpeg", 6 * 1024 * 1024⟩ true true true true 7
  obtain ⟨hs, -, -, -, -, hst, -⟩ := h1.1 (by decide)
  obtain ⟨hs', -, -, -, -, -, hp⟩ := h2.2 rfl (by norm_num)
  exact ⟨by decide, hs, hst, by norm_num, hs', hp⟩

/-! ### State-shape lemmas for the handlers, and the id invariant -/

theorem postTodosHandler_state (st : ServerState) (text : Option String)
    (file : Option FileUpload) (bc nk sk : Bool) (now : Nat) :
    (textInvalid text = true ∧ (postTodosHandler st text file bc nk sk now).state = st) ∨
    (∃ t : Todo, t.id = st.nextId ∧
      (postTodosHandler st text file bc nk sk now).returned = some t ∧
      (postTodosHandler st text file bc nk sk now).state =
        ⟨st.todos ++ [t], st.nextId + 1⟩) := by
  by_cases hv : textInvalid text = true
  · exact Or.inl ⟨hv, by simp [postTodosHandler, hv]⟩
  · right
    rw [Bool.not_eq_true] at hv
    cases file with
    | none =>
      exact ⟨⟨st.nextId, trimStr (text.getD ""), false, false, none⟩, rfl,
        by simp [postTodosHandler, hv], by simp [postTodosHandler, hv]⟩
    | some f =>
      cases bc with
      | false =>
        exact ⟨⟨st.nextId, trimStr (text.getD ""), false, false, none⟩, rfl,
          by simp [postTodosHandler, hv], by simp [postTodosHandler, hv]⟩
      | true =>
        cases nk with
        | false =>
          exact ⟨⟨st.nextId, trimStr (text.getD ""), false, false, none⟩, rfl,
            by simp [postTodosHandler, hv, uploadPhotoToGCS],
            by simp [postTodosHandler, hv, uploadPhotoToGCS]⟩
        | true =>
          cases sk with
          | false =>
            exact ⟨⟨st.nextId, trimStr (text.getD ""), false, false, none⟩, rfl,
              by simp [postTodosHandler, hv, uploadPhotoToGCS],
              by simp [postTodosHandler, hv, uploadPhotoToGCS]⟩
          | true =>
            exact ⟨⟨st.nextId, trimStr (text.getD ""), false, true,
                some (photoKey st.nextId now)⟩, rfl,
              by simp [postTodosHandler, hv, uploadPhotoToGCS],
              by simp [postTodosHandler, hv, uploadPhotoToGCS]⟩

theorem putTodoHandler_state (st : ServerState) (id : Nat) (c : CompletedField) :
    (putTodoHandler st id c).state = st ∨
    ∃ f : Todo → Todo, (∀ t, (f t).id = t.id) ∧
      (putTodoHandler st id c).state = ⟨updateFirst st.todos id f, st.nextId⟩ := by
  rcases hfind : st.todos.find? (fun t => t.id = id) with _ | todo
  · left; simp [putTodoHandler, hfind]
  · cases c with
    | boolVal b =>
      exact Or.inr ⟨fun t => { t with completed := b }, fun t => rfl,
        by simp [putTodoHandler, hfind]⟩
    | absent => left; simp [putTodoHandler, hfind]
    | nonBool => left; simp [putTodoHandler, hfind]

theorem deleteTodoHandler_state (st : ServerState) (id : Nat) (bc dk : Bool) :
    (deleteTodoHandler st id bc dk).state = st ∨
    (deleteTodoHandler st id bc dk).state =
      ⟨st.todos.eraseP (fun t => t.id = id), st.nextId⟩ := by
  rcases hfind : st.todos.find? (fun t => t.id = id) with _ | todo
  · left; simp [deleteTodoHandler, hfind]
  · right; simp [deleteTodoHandler, hfind]

theorem postTodoPhotoHandler_state (st : ServerState) (id : Nat)
    (file : Option FileUpload) (bc dk nk sk : Bool) (now : Nat) :
    (postTodoPhotoHandler st id file bc dk nk sk now).state = st ∨
    ∃ f : Todo → Todo, (∀ t, (f t).id = t.id) ∧
      (postTodoPhotoHandler st id file bc dk nk sk now).state =
        ⟨updateFirst st.todos id f, st.nextId⟩ := by
  rcases hfind : st.todos.find? (fun t => t.id = id) with _ | todo
  · left; simp [postTodoPhotoHandler, hfind]
  · by_cases hfile : file = none
    · left; simp [postTodoPhotoHandler, hfind, hfile]
    · cases bc with
      | false => left; simp [postTodoPhotoHandler, hfind, hfile]
      | true =>
        cases nk with
        | false => left; simp [postTodoPhotoHandler, hfind, hfile, uploadPhotoToGCS]
        | true =>
          cases sk with
          | false => left; simp [postTodoPhotoHandler, hfind, hfile, uploadPhotoToGCS]
          | true =>
            exact Or.inr ⟨fun t =>
              { t with hasPhoto := true, photoFilename := some (photoKey id now) },
              fun t => rfl,
              by simp [postTodoPhotoHandler, hfind, hfile, uploadPhotoToGCS]⟩

theorem deleteTodoPhotoHandler_state (st : ServerState) (id : Nat) (bc dk : Bool) :
    (deleteTodoPhotoHandler st id bc dk).state = st ∨
    ∃ f : Todo → Todo, (∀ t, (f t).id = t.id) ∧
      (deleteTodoPhotoHandler st id bc dk).state =
        ⟨updateFirst st.todos id f, st.nextId⟩ := by
  rcases hfind : st.todos.find? (fun t => t.id = id) with _ | todo
  · left; simp [deleteTodoPhotoHandler, hfind]
  · by_cases hph : (todo.hasPhoto ∧ strTruthy todo.photoFilename)
    · by_cases hfail : (bc = true ∧ ¬dk = true)
      · left
        simp only [deleteTodoPhotoHandler, hfind]
        rw [if_neg (not_not_intro hph), if_pos (by simpa using hfail)]
      · right
        refine ⟨fun t => { t with hasPhoto := false, photoFilename := none },
          fun t => rfl, ?_⟩
        simp only [deleteTodoPhotoHandler, hfind]
        rw [if_neg (not_not_intro hph), if_neg (by simpa using hfail)]
    · left
      simp only [deleteTodoPhotoHandler, hfind]
      rw [if_pos hph]

/-- Appending a todo carrying the fresh id `nextId` and bumping the
counter preserves the id invariant. -/
theorem IdInv_append_fresh {st : ServerState} (h : IdInv st) (t : Todo)
    (ht : t.id = st.nextId) : IdInv ⟨st.todos ++ [t], st.nextId + 1⟩ := by
  obtain ⟨hbound, hpw⟩ := h
  constructor
  · intro u hu
    rcases List.mem_append.mp hu with hu | hu
    · exact Nat.lt_trans (hbound u hu) (Nat.lt_succ_self _)
    · rcases List.mem_singleton.mp hu with rfl
      rw [ht]; exact Nat.lt_succ_self _
  · rw [List.pairwise_append]
    refine ⟨hpw, List.pairwise_singleton _ _, ?_⟩
    intro a ha b hb
    rcases List.mem_singleton.mp hb with rfl
    rw [ht]
    exact Nat.ne_of_lt (hbound a ha)

/-- Updating todos in place with an id-preserving function preserves the
id invariant. -/
theorem IdInv_updateFirst {st : ServerState} (h : IdInv st) (id : Nat)
    (f : Todo → Todo) (hf : ∀ t, (f t).id = t.id) :
    IdInv ⟨updateFirst st.todos id f, st.nextId⟩ := by
  obtain ⟨hbound, hpw⟩ := h
  constructor
  · intro u hu
    rcases mem_updateFirst hu with hu | ⟨v, hv, -, rfl⟩
    · exact hbound u hu
    · rw [hf]; exact hbound v hv
  · have hmap : (updateFirst st.todos id f).map (fun t => t.id) =
        st.todos.map (fun t => t.id) := updateFirst_map_id st.todos id f hf
    have h1 : (st.todos.map (fun t => t.id)).Pairwise (fun a b => a ≠ b) :=
      (List.pairwise_map).mpr hpw
    have h2 : ((updateFirst st.todos id f).map (fun t => t.id)).Pairwise
        (fun a b => a ≠ b) := hmap ▸ h1
    exact (List.pairwise_map).mp h2

/-- Erasing a todo preserves the id invariant. -/
theorem IdInv_eraseP {st : ServerState} (h : IdInv st) (id : Nat) :
    IdInv ⟨st.todos.eraseP (fun t => t.id = id), st.nextId⟩ := by
  obtain ⟨hbound, hpw⟩ := h
  exact ⟨fun u hu => hbound u (List.mem_of_mem_eraseP hu),
    hpw.sublist (List.eraseP_sublist st.todos)⟩

/-- One request preserves the id invariant. -/
theorem step_IdInv {st : ServerState} (h : IdInv st) (op : Op) :
    IdInv (step st op) := by
  cases op with
  | create text file bc nk sk now =>
    rcases postTodosHandler_state st text file bc nk sk now with ⟨-, hs⟩ | ⟨t, ht, -, hs⟩
    · rw [step, hs]; exact h
    · rw [step, hs]; exact IdInv_append_fresh h t ht
  | setCompleted id c =>
    rcases putTodoHandler_state st id c with hs | ⟨f, hf, hs⟩
    · rw [step, hs]; exact h
    · rw [step, hs]; exact IdInv_updateFirst h id f hf
  | deleteTodo id bc dk =>
    rcases deleteTodoHandler_state st id bc dk with hs | hs
    · rw [step, hs]; exact h
    · rw [step, hs]; exact IdInv_eraseP h id
  | attachPhoto id file bc dk nk sk now =>
    rcases postTodoPhotoHandler_state st id file bc dk nk sk now with hs | ⟨f, hf, hs⟩
    · rw [step, hs]; exact h
    · rw [step, hs]; exact IdInv_updateFirst h id f hf
  | detachPhoto id bc dk =>
    rcases deleteTodoPhotoHandler_state st id bc dk with hs | ⟨f, hf, hs⟩
    · rw [step, hs]; exact h
    · rw [step, hs]; exact IdInv_updateFirst h id f hf

/-- One request never decreases the id counter. -/
theorem step_nextId_mono (st : ServerState) (op : Op) :
    st.nextId ≤ (step st op).nextId := by
  cases op with
  | create text file bc nk sk now =>
    rcases postTodosHandler_state st text file bc nk sk now with ⟨-, hs⟩ | ⟨t, -, -, hs⟩
    · rw [step, hs]
    · rw [step, hs]; exact Nat.le_succ _
  | setCompleted id c =>
    rcases putTodoHandler_state st id c with hs | ⟨f, -, hs⟩ <;> rw [step, hs]
  | deleteTodo id bc dk =>
    rcases deleteTodoHandler_state st id bc dk with hs | hs <;> rw [step, hs]
  | attachPhoto id file bc dk nk sk now =>
    rcases postTodoPhotoHandler_state st id file bc dk nk sk now with hs | ⟨f, -, hs⟩ <;>
      rw [step, hs]
  | detachPhoto id bc dk =>
    rcases deleteTodoPhotoHandler_state st id bc dk with hs | ⟨f, -, hs⟩ <;>
      rw [step, hs]

theorem run_IdInv {st : ServerState} (h : IdInv st) (ops : List Op) :
    IdInv (run st ops) := by
  induction ops generalizing st with
  | nil => exact h
  | cons op ops ih => exact ih (step_IdInv h op)

theorem run_nextId_mono (st : ServerState) (ops : List Op) :
    st.nextId ≤ (run st ops).nextId := by
  induction ops generalizing st with
  | nil => exact Nat.le_refl _
  | cons op ops ih => exact Nat.le_trans (step_nextId_mono st op) (ih (step st op))

theorem IdInv_initialState : IdInv initialState :=
  ⟨by decide, by decide⟩

/-- C5: along every request trace from the seeded initial state, stored
todo ids stay pairwise distinct and below the counter, the counter never
decreases under any further trace of creates and deletes, and every
successful create returns a todo whose id is the current counter value —
strictly greater than the id of every previously existing todo, seeds
included — after which the counter moves past it, so no id is ever
assigned twice within the process lifetime. -/
theorem ids_strictly_increasing (ops : List Op) :
    IdInv (run initialState ops) ∧
    (∀ more, (run initialState ops).nextId ≤
      (run (run initialState ops) more).nextId) ∧
    (∀ text file bc nk sk now, textInvalid text = false →
      ∃ nt, (postTodosHandler (run initialState ops) text file bc nk sk now).returned =
          some nt ∧
        nt.id = (run initialState ops).nextId ∧
        (∀ t ∈ (run initialState ops).todos, t.id < nt.id) ∧
        (postTodosHandler (run initialState ops) text file bc nk sk now).state.nextId =
          nt.id + 1) := by
  have hinv : IdInv (run initialState ops) := run_IdInv IdInv_initialState ops
  refine ⟨hinv, fun more => run_nextId_mono _ more, ?_⟩
  intro text file bc nk sk now hv
  rcases postTodosHandler_state (run initialState ops) text file bc nk sk now with
    ⟨hbad, -⟩ | ⟨t, ht, hret, hs⟩
  · rw [hv] at hbad; exact absurd hbad (by simp)
  · refine ⟨t, hret, ht, ?_, ?_⟩
    · intro u hu
      rw [ht]
      exact hinv.1 u hu
    · rw [hs, ht]

/-- C5 witness: on the empty trace, creating "walk the dog" yields a todo
with id 3, strictly above both seed ids; the state's counter becomes 4. -/
theorem ids_strictly_increasing_witness :
    textInvalid (some "walk the dog") = false ∧
    ∃ nt, (postTodosHandler (run initialState []) (some "walk the dog")
        none true true true 0).returned = some nt ∧
      nt.id = 3 ∧
      (∀ t ∈ (run initialState []).todos, t.id < nt.id) ∧
      (postTodosHandler (run initialState []) (some "walk the dog")
        none true true true 0).state.nextId = 4 := by
  obtain ⟨nt, hret, hid, hlt, hninc⟩ :=
    (ids_strictly_increasing []).2.2 (some "walk the dog") none true true true 0 rfl
  have hid3 : nt.id = 3 := hid
  exact ⟨rfl, nt, hret, hid3, fun t ht => hlt t ht, by rw [hninc, hid3]⟩

end TodoApp
